import Mathlib

/-!
Verification of the viral-fashion-agent pipeline against its specification.

The Python sources are shallowly embedded: strings are `List Char`, dicts
either become structures (when the key set is fixed) or association lists
(when the key set matters), and interaction with external services (AI
providers, TTS, HTTP, the thread pool) is represented by explicit outcome
values passed to the embedded functions.  Every definition mirrors one
function of the repository, named after it.
-/

set_option maxRecDepth 100000

namespace ViralFashion

/-- Python strings are modelled as lists of characters. -/
abbrev Str := List Char

/-- Python `' '.join(xs)`: concatenate with a single space between elements. -/
def joinSpace : List Str → Str
  | [] => []
  | [x] => x
  | x :: y :: rest => x ++ ' ' :: joinSpace (y :: rest)

/-- Python `f'#{tag}'`: prepend a hash sign to a tag. -/
def hashtagOf (tag : Str) : Str := '#' :: tag

/-- Video metadata as used by the platform-adaptation functions: the
`title`, `description` and `tags` entries of the metadata dict
(`_adapt_metadata` reads `description` and `tags`, `optimize_for_platform`
additionally reads `title`; both copy the dict and rewrite only these).  -/
structure Metadata where
  title : Str
  description : Str
  tags : List Str
deriving DecidableEq, Repr

/-- `MultiPlatformUploader._adapt_metadata` (src/uploaders/__init__.py,
lines 91-124): per-platform metadata adaptation on the publish path.
YouTube appends `\n\n#Shorts` to the description; TikTok truncates a
description longer than 150 characters to its first 147 plus `...`;
Instagram appends up to 30 hashtags; Twitter truncates a description longer
than 250 characters to its first 247 plus `...`; Facebook is a no-op. -/
def adapt_metadata (m : Metadata) (platform : Str) : Metadata :=
  if platform = "youtube".data then
    { m with description := m.description ++ "\n\n#Shorts".data }
  else if platform = "tiktok".data then
    let desc := if 150 < m.description.length then
        m.description.take 147 ++ "...".data
      else m.description
    { m with description := desc }
  else if platform = "instagram".data then
    let hashtags := joinSpace ((m.tags.take 30).map hashtagOf)
    { m with description := m.description ++ "\n\n".data ++ hashtags }
  else if platform = "twitter".data then
    let desc := if 250 < m.description.length then
        m.description.take 247 ++ "...".data
      else m.description
    { m with description := desc }
  else m

/-- `ContentGenerator.optimize_for_platform` (src/content_generator.py,
lines 301-330): per-platform metadata optimization on the generation path.
YouTube appends ` #Shorts` to the title and `\n\n#Shorts #Fashion` to the
description; TikTok truncates a description longer than 100 characters to
its first 97 plus `...` and appends up to 5 hashtags; Instagram appends up
to 30 hashtags; Twitter truncates the description to 200 characters and
appends up to 3 hashtags. -/
def optimize_for_platform (m : Metadata) (platform : Str) : Metadata :=
  if platform = "youtube".data then
    { m with title := m.title ++ " #Shorts".data,
             description := m.description ++ "\n\n#Shorts #Fashion".data }
  else if platform = "tiktok".data then
    let desc := if 100 < m.description.length then
        m.description.take 97 ++ "...".data
      else m.description
    let hashtags := joinSpace ((m.tags.take 5).map hashtagOf)
    { m with description := desc ++ "\n\n".data ++ hashtags }
  else if platform = "instagram".data then
    let hashtags := joinSpace ((m.tags.take 30).map hashtagOf)
    { m with description := m.description ++ "\n\n".data ++ hashtags }
  else if platform = "twitter".data then
    let desc := m.description.take 200
    let hashtags := joinSpace ((m.tags.take 3).map hashtagOf)
    { m with description := desc ++ ' ' :: hashtags }
  else m

/-- A concrete metadata value on which the publish-path adaptation and the
generator-path adaptation visibly disagree for TikTok: a 120-character
description is left alone by `_adapt_metadata` (cutoff 150) but truncated
to 97 characters plus `...` — and suffixed with hashtags — by
`optimize_for_platform` (cutoff 100). -/
def mC2 : Metadata :=
  { title := "T".data
    description := List.replicate 120 'a'
    tags := [['x']] }

/-- A 200-character description with a single 50-character tag: the full
TikTok-adapted description is 153 characters long, above the claimed 103
bound. -/
def mC7a : Metadata :=
  { title := []
    description := List.replicate 200 'a'
    tags := [List.replicate 50 'b'] }

/-- A 300-character description with three 100-character tags: the full
Twitter-adapted description is 506 characters long, above the claimed 280
bound. -/
def mC7b : Metadata :=
  { title := []
    description := List.replicate 300 'a'
    tags := [List.replicate 100 'c', List.replicate 100 'c', List.replicate 100 'c'] }

/-- Outcome of one platform adapter's `upload(video_path, metadata)` call
in the run under consideration: the call either raises an exception or
returns a value (an upload URL, or `None` for a soft failure such as
failed authentication or validation). -/
inductive UploadOutcome where
  | raises
  | returns (url : Option Str)
deriving DecidableEq, Repr

/-- The exception `upload_to_all` itself can raise: CPython's
`ThreadPoolExecutor.__init__` raises `ValueError("max_workers must be
greater than 0")` when `max_workers` is 0, and `upload_to_all` sizes the
pool as `len(self.uploaders)`. -/
inductive UploadError where
  | emptyPool
deriving DecidableEq, Repr

/-- `MultiPlatformUploader.upload_to_all` (src/uploaders/__init__.py,
lines 48-89).  `self.uploaders` is a dict of platform name to adapter;
here it is a list of platform names paired with that adapter's upload
outcome for this run (the dict guarantees distinct platform names).  The
body submits one upload per adapter to a `ThreadPoolExecutor` sized to the
number of adapters (raising `ValueError` when that number is 0), then for
each completed future stores `future.result()` under the platform key, or
`None` when the future raises.  Completion order does not affect the
resulting mapping, so it is rendered in adapter order. -/
def upload_to_all (uploaders : List (Str × UploadOutcome)) :
    Except UploadError (List (Str × Option Str)) :=
  if uploaders = [] then .error .emptyPool
  else .ok (uploaders.map fun pu =>
    (pu.1, match pu.2 with
           | .raises => none
           | .returns u => u))

/-- A concrete three-adapter run for exercising `upload_to_all`: the
second adapter raises, the third returns `None`. -/
def uploadersW : List (Str × UploadOutcome) :=
  [("youtube".data, .returns (some "url1".data)),
   ("tiktok".data, .raises),
   ("twitter".data, .returns none)]

/-- Environment of one `MediaCreator.create_video` run: which stages
succeed.  `voiceoverOk` is `generate_voiceover`'s return value (true means
the temporary audio file was written); `probeOk` is whether
`AudioFileClip(audio_path)` succeeds; `stockClips` and `slideshowClips`
are how many clips `fetch_stock_videos` and `create_slideshow_from_images`
yield (both catch their own exceptions and return what they collected);
`exportOk` is whether `write_videofile` succeeds. -/
structure AssemblyEnv where
  voiceoverOk : Bool
  probeOk : Bool
  stockClips : Nat
  slideshowClips : Nat
  exportOk : Bool
deriving DecidableEq, Repr

/-- Observable outcome of `create_video`: its boolean return value, and
whether the temporary `_audio.mp3` file is still on disk afterwards. -/
structure AssemblyResult where
  success : Bool
  audioFileRemains : Bool
deriving DecidableEq, Repr

/-- `MediaCreator.create_video` (src/media_creator.py, lines 30-109),
tracking the temporary audio file.  The whole body is one `try` block
whose `except` logs and returns `False`; `os.remove(audio_path)` sits at
the end of the `try`, after the export, so it only runs when every stage
succeeded.  `add_captions` and `add_branding` catch their own exceptions
and fall back to the unmodified clip, so they cannot abort the run;
`concatenate_videoclips` raises when both acquisition paths produced zero
clips; a probe or export failure raises out of the respective call. -/
def create_video (env : AssemblyEnv) : AssemblyResult :=
  if env.voiceoverOk = false then { success := false, audioFileRemains := false }
  else if env.probeOk = false then { success := false, audioFileRemains := true }
  else
    let clips := if env.stockClips ≠ 0 then env.stockClips else env.slideshowClips
    if clips = 0 then { success := false, audioFileRemains := true }
    else if env.exportOk = false then { success := false, audioFileRemains := true }
    else { success := true, audioFileRemains := false }

/-- A run in which the voiceover is written but both visual-acquisition
paths come back empty, so composition raises. -/
def envC4 : AssemblyEnv :=
  { voiceoverOk := true, probeOk := true, stockClips := 0,
    slideshowClips := 0, exportOk := true }

/-- A trend record as produced by `TrendDetector` and consumed by
`ContentGenerator`: a dict with `source`, `title`, optional `description`,
optional `keywords` (`trend.get('keywords', ...)` distinguishes a missing
key from a present-but-empty list), and a `score`. -/
structure Trend where
  source : Str
  title : Str
  description : Option Str
  keywords : Option (List Str)
  score : Nat
deriving DecidableEq, Repr

/-- `ContentGenerator._fallback_script` (src/content_generator.py, lines
332-345): a fixed template naming the trend title. -/
def fallback_script (trend : Trend) : Str :=
  "Did you know this is trending right now?\n\n".data ++ trend.title ++
    "\n\nHere\x27s what makes it special:\n• Unique style\n• Easy to wear\n• Perfect for any occasion\n\nTry this trend and stand out!\n\nFollow for daily fashion tips!".data

/-- `ContentGenerator.generate_script` (src/content_generator.py, lines
176-216), with the provider chain's combined outcome (`_call_ai`) passed
in: `None` when every provider failed; a returned text is used only when
truthy (non-empty), otherwise the fallback template is used. -/
def generate_script (aiScript : Option Str) (trend : Trend) : Str :=
  match aiScript with
  | some s => if s = [] then fallback_script trend else s
  | none => fallback_script trend

/-- A JSON-ish metadata value: generated metadata entries are strings
(title, description) or lists of strings (hashtags, tags, keywords). -/
inductive MetaVal where
  | s (v : Str)
  | l (v : List Str)
deriving DecidableEq, Repr

/-- A metadata dict: association list with the (unique) keys in insertion
order, as a Python dict. -/
abbrev MetaDict := List (Str × MetaVal)

/-- Python `key in d` for a metadata dict. -/
def hasKey (d : MetaDict) (k : Str) : Bool :=
  d.any fun kv => decide (kv.1 = k)

/-- Python `d[k] = v`: replace the value at an existing key in place, else
append the new key at the end. -/
def dictSet : MetaDict → Str → MetaVal → MetaDict
  | [], k, v => [(k, v)]
  | kv :: rest, k, v =>
      if kv.1 = k then (k, v) :: rest else kv :: dictSet rest k v

/-- Python `d.get(k)` restricted to string values (`[]` when the key is
missing). -/
def dictGetStr (d : MetaDict) (k : Str) : Str :=
  match d.find? (fun kv => decide (kv.1 = k)) with
  | some (_, .s v) => v
  | _ => []

/-- Python `d.get(k, [])` restricted to list values. -/
def dictGetList (d : MetaDict) (k : Str) : List Str :=
  match d.find? (fun kv => decide (kv.1 = k)) with
  | some (_, .l v) => v
  | _ => []

/-- Python `tag.replace('#', '')`: drop every hash sign. -/
def removeHash (tag : Str) : Str :=
  tag.filter fun c => decide (c ≠ '#')

/-- `ContentGenerator._fallback_metadata` (src/content_generator.py, lines
347-356): title is the trend title truncated to 60 characters, description
the script truncated to 200, tags the trend's keywords (generic defaults
when the key is missing), hashtags a fixed set.  Note the returned dict
has exactly these four keys. -/
def fallback_metadata (script : Str) (trend : Trend) : MetaDict :=
  [("title".data, .s (trend.title.take 60)),
   ("description".data, .s (script.take 200)),
   ("tags".data, .l (trend.keywords.getD ["fashion".data, "style".data, "trend".data])),
   ("hashtags".data, .l ["#fashion".data, "#style".data, "#trending".data,
                         "#ootd".data, "#fashiontips".data])]

/-- Outcome of the AI call plus JSON parsing inside `generate_metadata`:
either every provider failed (`_call_ai` returned `None`), or a provider
answered but stripping the code fence and `json.loads` raised, or parsing
produced a dict. -/
inductive MetaOutcome where
  | providersFailed
  | parseFailed
  | parsed (d : MetaDict)
deriving DecidableEq, Repr

/-- `ContentGenerator.generate_metadata` (src/content_generator.py, lines
218-270): on a successful parse, add `tags` = the parsed dict's
`hashtags` (default `[]`) each with hash signs removed, then — still
inside the `try` — log `f"Generated metadata: {metadata['title']}"`.
That f-string is evaluated eagerly, so a parsed dict without a `title`
key raises `KeyError` here, and the `except` returns the fallback
metadata instead of the parsed dict.  On provider exhaustion or a parse
failure, return the fallback metadata. -/
def generate_metadata (outcome : MetaOutcome) (script : Str) (trend : Trend) : MetaDict :=
  match outcome with
  | .parsed d =>
      let d2 := dictSet d "tags".data
        (.l ((dictGetList d "hashtags".data).map removeHash))
      if hasKey d2 "title".data then d2 else fallback_metadata script trend
  | .providersFailed => fallback_metadata script trend
  | .parseFailed => fallback_metadata script trend

/-- A concrete trend for exercising the fallback path of
`generate_metadata`. -/
def trendC5 : Trend :=
  { source := "reddit".data, title := "Sustainable Fashion".data,
    description := none, keywords := none, score := 150 }

/-- A parsed provider dict carrying all four requested keys. -/
def d5a : MetaDict :=
  [("title".data, .s "T".data), ("description".data, .s "D".data),
   ("hashtags".data, .l ["#x".data]), ("keywords".data, .l ["x".data])]

/-- A parsed provider dict with no `title` key. -/
def d5b : MetaDict := [("description".data, .s "D".data)]

/-- A degenerate but well-formed trend: empty title, present-but-empty
keyword list. -/
def trendC6 : Trend :=
  { source := "reddit".data, title := [], description := none,
    keywords := some [], score := 0 }

/-- A concrete trend with nonempty title and keywords. -/
def trendC6ok : Trend :=
  { source := "reddit".data, title := "Quiet luxury looks".data,
    description := none, keywords := some ["fashion".data], score := 10 }

/-- One row of the `analytics` table (id is the autoincrement primary
key; `revenue` and `last_updated` play no role in the upsert claim). -/
structure AnalyticsRow where
  id : Nat
  upload_id : Nat
  views : Nat
  likes : Nat
  comments : Nat
  shares : Nat
deriving DecidableEq, Repr

/-- A stats dict as passed to `update_analytics`; missing keys default to
0 via `stats.get(key, 0)`. -/
abbrev StatsDict := List (Str × Nat)

/-- Python `stats.get(k, 0)`. -/
def statGet (stats : StatsDict) (k : Str) : Nat :=
  match stats.find? (fun kv => decide (kv.1 = k)) with
  | some kv => kv.2
  | none => 0

/-- SQLite's autoincrement id for the next inserted row. -/
def nextRowId (table : List AnalyticsRow) : Nat :=
  (table.foldl (fun m r => max m r.id) 0) + 1

/-- The four columns the SQL `UPDATE` statement of `update_analytics`
sets on a row. -/
def updRow (r : AnalyticsRow) (stats : StatsDict) : AnalyticsRow :=
  { r with views := statGet stats "views".data,
           likes := statGet stats "likes".data,
           comments := statGet stats "comments".data,
           shares := statGet stats "shares".data }

/-- `Database.update_analytics` (src/database.py, lines 162-196): select
an existing analytics row by `upload_id`; if one exists, `UPDATE` the
stats columns of every row with that `upload_id`, else `INSERT` a fresh
row. -/
def update_analytics (table : List AnalyticsRow) (uploadId : Nat)
    (stats : StatsDict) : List AnalyticsRow :=
  if table.any (fun r => decide (r.upload_id = uploadId)) then
    table.map fun r => if r.upload_id = uploadId then updRow r stats else r
  else
    table ++ [updRow { id := nextRowId table, upload_id := uploadId,
                       views := 0, likes := 0, comments := 0, shares := 0 } stats]

/-- A sequence of `update_analytics` calls for one upload id. -/
def runUpdates (table : List AnalyticsRow) (uploadId : Nat)
    (calls : List StatsDict) : List AnalyticsRow :=
  calls.foldl (fun t s => update_analytics t uploadId s) table

/-- The round-trip of the claim: write views 100, then views 200. -/
def callsC8 : List StatsDict :=
  [[("views".data, 100)], [("views".data, 200)]]

/-- Python `pat in s` on strings: substring test. -/
def isSubstr (pat : Str) : Str → Bool
  | [] => decide (pat = [])
  | c :: rest => pat.isPrefixOf (c :: rest) || isSubstr pat rest

/-- The fixed fashion vocabulary of `TrendDetector._is_fashion_related`
(src/trend_detector.py, lines 361-372). -/
def fashion_keywords : List Str :=
  (["fashion", "style", "outfit", "clothing", "wear", "dress", "shoes",
    "sneakers", "streetwear", "designer", "brand", "trend", "look",
    "aesthetic", "fit", "drip", "ootd", "vintage", "luxury", "casual",
    "formal", "accessories", "jewelry", "bag", "jacket", "coat", "pants",
    "jeans", "shirt", "hoodie", "sweater", "boots", "sustainable"] :
    List String).map String.data

/-- `TrendDetector._is_fashion_related`: any vocabulary word is a
(case-insensitive) substring of the text. -/
def is_fashion_related (text : Str) : Bool :=
  fashion_keywords.any fun kw => isSubstr kw (text.map Char.toLower)

/-- True when the string starts with a non-whitespace character (the
regex `\S+` can start matching here). -/
def startsNonSpace : Str → Bool
  | [] => false
  | ch :: _ => !ch.isWhitespace

/-- Drop the maximal leading run of non-whitespace characters (the greedy
`\S+` match). -/
def dropNonSpace (t : Str) : Str :=
  t.dropWhile fun ch => !ch.isWhitespace

/-- The substitution `re.sub(r'http\S+|@\S+|#', '', text)` of
`TrendDetector._extract_keywords`: scan left to right; `http` followed by
a non-space run is removed with that run, `@` followed by a non-space run
likewise, a lone `#` is removed, and everything else is kept. -/
def cleanText : Str → Str
  | [] => []
  | c :: rest =>
      if "http".data.isPrefixOf (c :: rest) && startsNonSpace (rest.drop 3) then
        cleanText (dropNonSpace (rest.drop 3))
      else if decide (c = '@') && startsNonSpace rest then
        cleanText (dropNonSpace rest)
      else if c = '#' then
        cleanText rest
      else
        c :: cleanText rest
termination_by s => s.length
decreasing_by
  · simp only [List.length_cons, dropNonSpace]
    have h1 : ((rest.drop 3).dropWhile (fun ch => !ch.isWhitespace)).length ≤
        (rest.drop 3).length := (List.dropWhile_suffix _).length_le
    have h2 := List.length_drop 3 rest
    omega
  · simp only [List.length_cons, dropNonSpace]
    have h1 : (rest.dropWhile (fun ch => !ch.isWhitespace)).length ≤
        rest.length := (List.dropWhile_suffix _).length_le
    omega
  · simp only [List.length_cons]
    omega
  · simp only [List.length_cons]
    omega

/-- A regex `\w` character: alphanumeric or underscore. -/
def isWordChar (c : Char) : Bool :=
  c.isAlphanum || c = '_'

/-- `re.findall(r'\b\w+\b', s)`: the maximal runs of word characters. -/
def wordTokens : Str → List Str
  | [] => []
  | c :: rest =>
      if isWordChar c then
        ((c :: rest).takeWhile isWordChar) ::
          wordTokens ((c :: rest).dropWhile isWordChar)
      else
        wordTokens rest
termination_by s => s.length
decreasing_by
  · simp only [List.length_cons, List.dropWhile_cons]
    rw [if_pos (by assumption)]
    have h1 : (rest.dropWhile isWordChar).length ≤ rest.length :=
      (List.dropWhile_suffix _).length_le
    omega
  · simp only [List.length_cons]
    omega

/-- `TrendDetector._extract_keywords` (src/trend_detector.py, lines
342-359): lowercase, strip URL/mention/hash tokens, tokenize on word
boundaries, keep fashion-related tokens longer than 3 characters, cap at
5. -/
def extract_keywords (text : Str) : List Str :=
  let cleaned := cleanText (text.map Char.toLower)
  ((wordTokens cleaned).filter fun w =>
    decide (3 < w.length) && is_fashion_related w).take 5

/-- The curated template titles of
`TrendDetector._generate_fallback_trends` (src/trend_detector.py, lines
236-309). -/
def trend_templates : List Str :=
  (["Winter layering essentials for {year}",
    "Spring fashion must-haves",
    "Summer outfit ideas that are trending",
    "Fall wardrobe staples everyone needs",
    "Quiet luxury aesthetic explained",
    "Old money style guide",
    "Coastal grandmother fashion trend",
    "Dark academia outfit ideas",
    "Clean girl aesthetic looks",
    "Y2K fashion comeback",
    "90s minimalist style",
    "Cottagecore outfit inspiration",
    "Oversized blazer styling tips",
    "Wide leg pants outfit ideas",
    "Platform shoes trend",
    "Cargo pants comeback",
    "Leather jacket outfit ideas",
    "Chunky loafer styling",
    "Maxi skirt outfit combinations",
    "Trench coat style guide",
    "Dopamine dressing colors",
    "Monochrome outfit ideas",
    "Neutral tones fashion",
    "Bold color blocking trends",
    "Thrift store fashion finds",
    "Sustainable fashion brands",
    "Capsule wardrobe essentials",
    "Vintage clothing styling tips",
    "Bella Hadid street style",
    "Hailey Bieber outfit recreation",
    "Zendaya fashion moments",
    "Korean street fashion trends",
    "Amazon fashion finds under $50",
    "Zara trending items",
    "H&M outfit ideas",
    "Shein haul favorites",
    "How to style oversized clothing",
    "Layering tips for petites",
    "Outfit formulas that always work",
    "Mix and match capsule wardrobe",
    "Trending jewelry 2025",
    "Designer bag dupes",
    "Sunglasses trends",
    "Belt styling ideas",
    "Fashion for curvy bodies",
    "Tall girl outfit ideas",
    "Petite styling hacks",
    "Date night outfit ideas",
    "Business casual lookbook",
    "Gym to brunch outfits",
    "Wedding guest dress code"] : List String).map String.data

/-- Python `template.format(year=current_year)`: replace every
occurrence of the placeholder with the year. -/
def substYear (year : Str) : Str → Str
  | [] => []
  | c :: rest =>
      if "{year}".data.isPrefixOf (c :: rest) then
        year ++ substYear year (rest.drop 5)
      else
        c :: substYear year rest
termination_by s => s.length
decreasing_by
  · simp only [List.length_cons]
    have h1 := List.length_drop 5 rest
    omega
  · simp only [List.length_cons]
    omega

/-- The title formatting of `_generate_fallback_trends`: format with the
current year when the placeholder occurs, else keep the template. -/
def formatTitle (template : Str) (year : Str) : Str :=
  if isSubstr "{year}".data template then substYear year template else template

/-- `random.randint(100, 500)` applied to a raw random value: the result
is always in `[100, 500]`. -/
def randint100to500 (r : Nat) : Nat :=
  100 + r % 401

/-- `TrendDetector._generate_fallback_trends` (src/trend_detector.py,
lines 231-340).  `random.shuffle` is modelled by passing the shuffled
template list (a permutation of `trend_templates`) and the per-index
`random.randint(100, 500)` draws by a raw random source `rand`.  The
first `num_trends` shuffled templates are formatted with the current
year, given heuristically extracted keywords (defaulting to
`['fashion','style','outfit']` when extraction is empty) and a score in
`[100, 500]`. -/
def generate_fallback_trends (shuffled : List Str) (year : Nat)
    (rand : Nat → Nat) (numTrends : Nat) : List Trend :=
  ((shuffled.take numTrends).enum).map fun ie =>
    let title := formatTitle ie.2 (toString year).data
    let kws := extract_keywords title
    { source := "fallback".data
      title := title
      description := some ("Trending topic: ".data ++ title)
      keywords := some (if kws = [] then
          ["fashion".data, "style".data, "outfit".data] else kws)
      score := randint100to500 (rand ie.1) }

/-- Python `s.lower()` (ASCII titles). -/
def lowerStr (s : Str) : Str := s.map Char.toLower

/-- Helper for Python `s.split()`: scan the string, accumulating the
current word (reversed) and emitting it at every whitespace boundary. -/
def splitWsAux : Str → Str → List Str
  | acc, [] => if acc = [] then [] else [acc.reverse]
  | acc, c :: rest =>
      if c.isWhitespace then
        if acc = [] then splitWsAux [] rest
        else acc.reverse :: splitWsAux [] rest
      else splitWsAux (c :: acc) rest

/-- Python `s.split()` with no argument: split on whitespace runs,
dropping empty pieces. -/
def splitWs (s : Str) : List Str := splitWsAux [] s

/-- `set(title.split())` of `_deduplicate_trends`: the set of words of a
title. -/
def wordSet (title : Str) : Finset Str := (splitWs title).toFinset

/-- The word-overlap ratio of `_deduplicate_trends`
(src/trend_detector.py, line 394): `|intersection| / |new title's word
set|`, as an exact rational (the Python float arithmetic is exact at
these small word counts, and the literal `0.7` rounds below 7/10, so the
`> 0.7` comparison agrees with the rational `> 7/10` on such ratios). -/
def overlapRatio (newTitle seenTitle : Str) : ℚ :=
  ((wordSet newTitle ∩ wordSet seenTitle).card : ℚ) /
    ((wordSet newTitle).card : ℚ)

/-- The similarity test of `_deduplicate_trends` (lines 388-397): only
applied when the new title has at least one word, and true when the
overlap ratio exceeds 0.7.  The comparison `|I|/|T| > 7/10` is phrased
over the integers as `7·|T| < 10·|I|` so that it evaluates; the lemma
`isSimilar_eq_true` proves it equal to the rational-ratio comparison. -/
def isSimilar (newTitle seenTitle : Str) : Bool :=
  decide (0 < (wordSet newTitle).card) &&
    decide (7 * (wordSet newTitle).card <
      10 * (wordSet newTitle ∩ wordSet seenTitle).card)

/-- `TrendDetector._deduplicate_trends` (src/trend_detector.py, lines
374-403), processing loop: drop a trend whose lowercase title was already
accepted, or is similar to some previously accepted lowercase title;
otherwise accept it and record its lowercase title. -/
def dedupGo (seen : List Str) : List Trend → List Trend
  | [] => []
  | t :: rest =>
      if lowerStr t.title ∈ seen then dedupGo seen rest
      else if seen.any fun s => isSimilar (lowerStr t.title) s then
        dedupGo seen rest
      else t :: dedupGo (lowerStr t.title :: seen) rest

/-- `TrendDetector._deduplicate_trends`: run the loop with an empty seen
set. -/
def deduplicate_trends (trends : List Trend) : List Trend :=
  dedupGo [] trends

/-- The accept/drop decision of one loop iteration of
`_deduplicate_trends`, as a function of the seen set and the lowercase
title. -/
def keepDecision (seen : List Str) (title : Str) : Bool :=
  !(decide (title ∈ seen)) && !(seen.any fun s => isSimilar title s)

/-- The seen set after processing one title. -/
def seenAfter (seen : List Str) (title : Str) : List Str :=
  if keepDecision seen title then title :: seen else seen

/-- The seen set when the loop reaches position `j` of the input. -/
def seenAt (seen : List Str) : List Trend → Nat → List Str
  | _, 0 => seen
  | [], _ + 1 => seen
  | t :: rest, j + 1 => seenAt (seenAfter seen (lowerStr t.title)) rest j

/-- The per-position accept/drop decisions of `_deduplicate_trends`. -/
def dedupFlags (seen : List Str) : List Trend → List Bool
  | [] => []
  | t :: rest =>
      keepDecision seen (lowerStr t.title) ::
        dedupFlags (seenAfter seen (lowerStr t.title)) rest

/-- A 10-word title. -/
def tA : Trend :=
  { source := "reddit".data
    title := "alpha bravo charlie delta echo foxtrot golf one two three".data
    description := none, keywords := none, score := 500 }

/-- A case-variant of `tA`'s title (case-insensitive duplicate). -/
def tB : Trend :=
  { source := "reddit".data
    title := "ALPHA Bravo charlie delta echo foxtrot golf ONE two three".data
    description := none, keywords := none, score := 400 }

/-- A 10-word title sharing exactly 7 words with `tA`: overlap ratio
exactly 7/10, the inclusive boundary. -/
def tC : Trend :=
  { source := "reddit".data
    title := "alpha bravo charlie delta echo foxtrot golf x1 x2 x3".data
    description := none, keywords := none, score := 300 }

/-- An 8-word title sharing 7 words with `tA`: overlap ratio 7/8, above
the boundary. -/
def tD : Trend :=
  { source := "reddit".data
    title := "alpha bravo charlie delta echo foxtrot golf zulu".data
    description := none, keywords := none, score := 200 }

/-! Theorems. -/

/-- Evaluation of `_adapt_metadata` at platform `youtube`. -/
lemma adapt_metadata_youtube (m : Metadata) :
    adapt_metadata m "youtube".data =
      { m with description := m.description ++ "\n\n#Shorts".data } := by
  unfold adapt_metadata
  rw [if_pos rfl]

/-- Evaluation of `_adapt_metadata` at platform `tiktok`. -/
lemma adapt_metadata_tiktok (m : Metadata) :
    adapt_metadata m "tiktok".data =
      { m with description := if 150 < m.description.length then
          m.description.take 147 ++ "...".data
        else m.description } := by
  unfold adapt_metadata
  rw [if_neg (by decide), if_pos rfl]

/-- Evaluation of `_adapt_metadata` at platform `instagram`. -/
lemma adapt_metadata_instagram (m : Metadata) :
    adapt_metadata m "instagram".data =
      { m with description := m.description ++ "\n\n".data ++
          joinSpace ((m.tags.take 30).map hashtagOf) } := by
  unfold adapt_metadata
  rw [if_neg (by decide), if_neg (by decide), if_pos rfl]

/-- Evaluation of `_adapt_metadata` at platform `twitter`. -/
lemma adapt_metadata_twitter (m : Metadata) :
    adapt_metadata m "twitter".data =
      { m with description := if 250 < m.description.length then
          m.description.take 247 ++ "...".data
        else m.description } := by
  unfold adapt_metadata
  rw [if_neg (by decide), if_neg (by decide), if_neg (by decide), if_pos rfl]

/-- Evaluation of `_adapt_metadata` at platform `facebook` (a no-op). -/
lemma adapt_metadata_facebook (m : Metadata) :
    adapt_metadata m "facebook".data = m := by
  unfold adapt_metadata
  rw [if_neg (by decide), if_neg (by decide), if_neg (by decide), if_neg (by decide)]

/-- Evaluation of `optimize_for_platform` at platform `tiktok`. -/
lemma optimize_for_platform_tiktok (m : Metadata) :
    optimize_for_platform m "tiktok".data =
      { m with description :=
          (if 100 < m.description.length then
            m.description.take 97 ++ "...".data
          else m.description) ++ "\n\n".data ++
          joinSpace ((m.tags.take 5).map hashtagOf) } := by
  unfold optimize_for_platform
  rw [if_neg (by decide), if_pos rfl]

/-- Evaluation of `optimize_for_platform` at platform `twitter`. -/
lemma optimize_for_platform_twitter (m : Metadata) :
    optimize_for_platform m "twitter".data =
      { m with description := m.description.take 200 ++ ' ' ::
          joinSpace ((m.tags.take 3).map hashtagOf) } := by
  unfold optimize_for_platform
  rw [if_neg (by decide), if_neg (by decide), if_neg (by decide), if_pos rfl]

/-- C2 counterexample: the Publisher's per-platform metadata adaptation
(`_adapt_metadata`) does not equal the Content Generator's
(`optimize_for_platform`): at `mC2` the two TikTok adaptations differ. -/
theorem adapt_ne_optimize :
    adapt_metadata mC2 "tiktok".data ≠ optimize_for_platform mC2 "tiktok".data := by
  decide

/-- C2 (amended): the metadata adaptation applied on the publish path
follows its own rules, different from the Content Generator's: YouTube
appends `\n\n#Shorts` to the description (title untouched); TikTok
truncates a description longer than 150 characters to 147 plus `...` and
appends no hashtags; Instagram appends up to 30 hashtags; Twitter
truncates a description longer than 250 characters to 247 plus `...` and
appends no hashtags; Facebook leaves the metadata unchanged.  The TikTok
and Twitter descriptions never exceed `max` of the original length and the
platform cutoff. -/
theorem adapt_metadata_rules (m : Metadata) :
    (adapt_metadata m "youtube".data).title = m.title ∧
    (adapt_metadata m "youtube".data).description =
      m.description ++ "\n\n#Shorts".data ∧
    (adapt_metadata m "tiktok".data).description =
      (if 150 < m.description.length then m.description.take 147 ++ "...".data
       else m.description) ∧
    (adapt_metadata m "tiktok".data).description.length ≤
      max m.description.length 150 ∧
    (adapt_metadata m "instagram".data).description =
      m.description ++ "\n\n".data ++
        joinSpace ((m.tags.take 30).map hashtagOf) ∧
    (adapt_metadata m "twitter".data).description =
      (if 250 < m.description.length then m.description.take 247 ++ "...".data
       else m.description) ∧
    (adapt_metadata m "twitter".data).description.length ≤
      max m.description.length 250 ∧
    adapt_metadata m "facebook".data = m := by
  refine ⟨?_, ?_, ?_, ?_, ?_, ?_, ?_, ?_⟩
  · rw [adapt_metadata_youtube]
  · rw [adapt_metadata_youtube]
  · rw [adapt_metadata_tiktok]
  · rw [adapt_metadata_tiktok]
    simp only []
    split
    · have h3 : ("...".data).length = 3 := rfl
      simp only [List.length_append, List.length_take, h3]
      omega
    · omega
  · rw [adapt_metadata_instagram]
  · rw [adapt_metadata_twitter]
  · rw [adapt_metadata_twitter]
    simp only []
    split
    · have h3 : ("...".data).length = 3 := rfl
      simp only [List.length_append, List.length_take, h3]
      omega
    · omega
  · rw [adapt_metadata_facebook]

/-- C7 counterexample: `optimize_for_platform` appends the hashtag block to
the truncated description, so the claimed absolute bounds fail: at `mC7a`
the TikTok-adapted description is longer than 103 characters, and at
`mC7b` the Twitter-adapted result is longer than 280 characters. -/
theorem optimize_length_bounds_fail :
    ¬ (optimize_for_platform mC7a "tiktok".data).description.length ≤ 103 ∧
    ¬ (optimize_for_platform mC7b "twitter".data).description.length ≤ 280 := by
  decide

/-- C7 (amended): for a 200-character description the TikTok truncation
(before the hashtag block) is exactly 100 characters, within the claimed
103, and the full adapted description is 102 characters plus the joined
top-5 hashtag block; for a 300-character description the Twitter
truncation (before the hashtag append) is exactly 200 characters, within
the claimed 250, and the full result is 201 characters plus the joined
top-3 hashtag block — so it is within 280 exactly when that block is at
most 79 characters. -/
theorem optimize_length_characterization (m : Metadata) :
    (m.description.length = 200 →
      (m.description.take 97 ++ "...".data).length = 100 ∧
      (optimize_for_platform m "tiktok".data).description.length =
        102 + (joinSpace ((m.tags.take 5).map hashtagOf)).length) ∧
    (m.description.length = 300 →
      (m.description.take 200).length = 200 ∧
      (optimize_for_platform m "twitter".data).description.length =
        201 + (joinSpace ((m.tags.take 3).map hashtagOf)).length ∧
      ((optimize_for_platform m "twitter".data).description.length ≤ 280 ↔
        (joinSpace ((m.tags.take 3).map hashtagOf)).length ≤ 79)) := by
  have h3 : ("...".data).length = 3 := rfl
  have h2 : ("\n\n".data).length = 2 := rfl
  constructor
  · intro h200
    constructor
    · simp only [List.length_append, List.length_take, h3, h200]
      omega
    · rw [optimize_for_platform_tiktok]
      simp only [List.length_append]
      rw [if_pos (by omega)]
      simp only [List.length_append, List.length_take, h3, h2, h200]
      omega
  · intro h300
    refine ⟨?_, ?_, ?_⟩
    · simp only [List.length_take, h300]
      omega
    · rw [optimize_for_platform_twitter]
      simp only [List.length_append, List.length_take, List.length_cons, h300]
      omega
    · rw [optimize_for_platform_twitter]
      simp only [List.length_append, List.length_take, List.length_cons, h300]
      omega

/-- C7 witness: the amended characterization applied at `mC7a` (200-char
description) and `mC7b` (300-char description). -/
theorem optimize_length_characterization_witness :
    ((mC7a.description.take 97 ++ "...".data).length = 100 ∧
      (optimize_for_platform mC7a "tiktok".data).description.length =
        102 + (joinSpace ((mC7a.tags.take 5).map hashtagOf)).length) ∧
    ((mC7b.description.take 200).length = 200 ∧
      (optimize_for_platform mC7b "twitter".data).description.length =
        201 + (joinSpace ((mC7b.tags.take 3).map hashtagOf)).length ∧
      ((optimize_for_platform mC7b "twitter".data).description.length ≤ 280 ↔
        (joinSpace ((mC7b.tags.take 3).map hashtagOf)).length ≤ 79)) :=
  ⟨(optimize_length_characterization mC7a).1 (by decide),
   (optimize_length_characterization mC7b).2 (by decide)⟩

/-- C1: for a nonempty set of initialized adapters, `upload_to_all`
returns a mapping with exactly one entry per adapter, in which an adapter
whose upload call raises is recorded as `None` while every other adapter's
entry is exactly the value its upload returned — no adapter's exception
removes, nulls, or blocks a sibling's entry.  (With zero adapters the pool
construction raises instead; see `upload_to_all_empty_pool_raises`.) -/
theorem upload_to_all_collects (uploaders : List (Str × UploadOutcome))
    (h : uploaders ≠ []) :
    ∃ results, upload_to_all uploaders = .ok results ∧
      results.length = uploaders.length ∧
      List.Forall₂ (fun (pu : Str × UploadOutcome) (r : Str × Option Str) =>
        r.1 = pu.1 ∧
        (pu.2 = .raises → r.2 = none) ∧
        (∀ u, pu.2 = .returns u → r.2 = u)) uploaders results := by
  refine ⟨uploaders.map fun pu =>
    (pu.1, match pu.2 with
           | .raises => none
           | .returns u => u), ?_, by simp, ?_⟩
  · unfold upload_to_all
    rw [if_neg h]
  · rw [List.forall₂_map_right_iff, List.forall₂_same]
    intro pu _
    refine ⟨rfl, ?_, ?_⟩
    · intro he
      rw [he]
    · intro u he
      rw [he]

/-- C1 witness: `upload_to_all_collects` applied to a concrete
three-adapter run in which the second adapter raises. -/
theorem upload_to_all_collects_witness :
    ∃ results, upload_to_all uploadersW = .ok results ∧
      results.length = uploadersW.length ∧
      List.Forall₂ (fun (pu : Str × UploadOutcome) (r : Str × Option Str) =>
        r.1 = pu.1 ∧
        (pu.2 = .raises → r.2 = none) ∧
        (∀ u, pu.2 = .returns u → r.2 = u)) uploadersW results :=
  upload_to_all_collects uploadersW (by decide)

/-- C10: with zero initialized adapters, `upload_to_all` raises (the
worker pool sized to `len(self.uploaders) = 0` is rejected at
construction with a `ValueError`) rather than returning an empty
mapping. -/
theorem upload_to_all_empty_pool_raises :
    upload_to_all [] = .error .emptyPool ∧
    ∀ results, upload_to_all [] ≠ .ok results := by
  refine ⟨rfl, ?_⟩
  intro results hok
  rw [show upload_to_all [] = .error .emptyPool from rfl] at hok
  cases hok

/-- C4 counterexample: a run in which the voiceover succeeded (so the
temporary audio file was written) but composition later raised — both
visual-acquisition paths were empty — returns `False` with the temporary
audio file still on disk: cleanup sits inside the `try`, not in a
`finally`. -/
theorem create_video_leaks_audio_on_failure :
    (create_video envC4).success = false ∧
    (create_video envC4).audioFileRemains = true := by
  decide

/-- C4 (amended): in every `create_video` run in which voiceover synthesis
succeeded (so the temporary audio file was written), the temporary audio
file has been deleted by the time the call returns exactly when the call
returns `True`; when any later stage raises and the call returns `False`,
the file is left on disk. -/
theorem create_video_audio_cleanup (env : AssemblyEnv)
    (h : env.voiceoverOk = true) :
    (create_video env).audioFileRemains = false ↔
      (create_video env).success = true := by
  unfold create_video
  rw [h]
  simp only [Bool.true_eq_false, if_false]
  split
  · simp
  · split
    · simp
      split <;> simp
    · split
      · simp
      · split <;> simp

/-- C4 witness: the amended cleanup equivalence applied to a fully
successful run. -/
theorem create_video_audio_cleanup_witness :
    (create_video { voiceoverOk := true, probeOk := true, stockClips := 2,
                    slideshowClips := 0, exportOk := true }).audioFileRemains = false ↔
      (create_video { voiceoverOk := true, probeOk := true, stockClips := 2,
                      slideshowClips := 0, exportOk := true }).success = true :=
  create_video_audio_cleanup _ rfl

/-- Keys after a Python dict assignment: `dictSet d k v` has key `k'` iff
`d` had it or `k' = k`. -/
lemma hasKey_dictSet (d : MetaDict) (k : Str) (v : MetaVal) (k' : Str) :
    hasKey (dictSet d k v) k' = (hasKey d k' || decide (k' = k)) := by
  induction d with
  | nil =>
      simp only [dictSet, hasKey, List.any_cons, List.any_nil, Bool.or_false]
      by_cases h : k = k'
      · subst h
        simp
      · rw [decide_eq_false h, decide_eq_false (fun hh => h hh.symm)]
        simp
  | cons kv rest ih =>
      simp only [dictSet]
      by_cases h : kv.1 = k
      · rw [if_pos h]
        simp only [hasKey, List.any_cons] at *
        rw [h]
        by_cases h2 : k = k'
        · subst h2
          simp
        · rw [decide_eq_false h2, decide_eq_false (fun hh => h2 hh.symm)]
          simp
      · rw [if_neg h]
        simp only [hasKey, List.any_cons] at *
        rw [ih, Bool.or_assoc]

/-- C5 counterexample: `generate_metadata` does not always contain all
five contract keys — the fallback path never has a `keywords` entry, and
the successful-parse path has only the parsed keys plus `tags` (here the
provider's JSON held only a title, so `description` is absent). -/
theorem generate_metadata_keys_missing :
    hasKey (generate_metadata .providersFailed "script".data trendC5)
      "keywords".data = false ∧
    hasKey (generate_metadata (.parsed [("title".data, .s "T".data)])
      "script".data trendC5) "description".data = false := by
  decide

/-- C5 (amended): on the fallback path (provider exhaustion or JSON parse
failure) `generate_metadata` returns a dict with exactly the keys
`title`, `description`, `tags`, `hashtags` — no `keywords`; on a
successful parse of a dict that has a `title` key it returns exactly the
parsed dict's keys plus `tags`, so it contains all five contract keys
only when the provider's JSON already supplied `title`, `description`,
`hashtags` and `keywords`; on a successful parse of a dict without
`title`, the eager logging f-string raises `KeyError` inside the `try`
and the fallback metadata (the same four keys) is returned instead. -/
theorem generate_metadata_keys (s : Str) (t : Trend) (d : MetaDict) :
    (generate_metadata .providersFailed s t).map Prod.fst =
      ["title".data, "description".data, "tags".data, "hashtags".data] ∧
    (generate_metadata .parseFailed s t).map Prod.fst =
      ["title".data, "description".data, "tags".data, "hashtags".data] ∧
    (hasKey d "title".data = true →
      ∀ k, hasKey (generate_metadata (.parsed d) s t) k =
        (hasKey d k || decide (k = "tags".data))) ∧
    (hasKey d "title".data = false →
      (generate_metadata (.parsed d) s t).map Prod.fst =
        ["title".data, "description".data, "tags".data, "hashtags".data]) := by
  refine ⟨rfl, rfl, ?_, ?_⟩
  · intro h k
    have hcond : hasKey (dictSet d "tags".data
        (.l ((dictGetList d "hashtags".data).map removeHash)))
        "title".data = true := by
      rw [hasKey_dictSet, h]
      decide
    simp only [generate_metadata]
    rw [if_pos hcond]
    exact hasKey_dictSet d "tags".data _ k
  · intro h
    have hcond : hasKey (dictSet d "tags".data
        (.l ((dictGetList d "hashtags".data).map removeHash)))
        "title".data = false := by
      rw [hasKey_dictSet, h]
      decide
    simp only [generate_metadata]
    rw [if_neg (by simp [hcond])]
    rfl

/-- C5 witness: the amended key law applied to a parsed dict carrying
all four requested keys (its `keywords` key survives, and `tags` is
added) and to a parsed dict lacking `title` (the `KeyError` path
returns the four fallback keys). -/
theorem generate_metadata_keys_witness :
    hasKey (generate_metadata (.parsed d5a) "script".data trendC5)
      "keywords".data =
      (hasKey d5a "keywords".data || decide ("keywords".data = "tags".data)) ∧
    (generate_metadata (.parsed d5b) "script".data trendC5).map Prod.fst =
      ["title".data, "description".data, "tags".data, "hashtags".data] :=
  ⟨(generate_metadata_keys "script".data trendC5 d5a).2.2.1 (by decide)
     "keywords".data,
   (generate_metadata_keys "script".data trendC5 d5b).2.2.2 (by decide)⟩

/-- C6 counterexample: for a trend with an empty title and a
present-but-empty keyword list, the all-providers-failed metadata has an
empty `title` entry and an empty `tags` entry, so the non-emptiness part
of the claim fails. -/
theorem content_fallback_degenerate :
    dictGetStr (generate_metadata .providersFailed
      (generate_script none trendC6) trendC6) "title".data = [] ∧
    dictGetList (generate_metadata .providersFailed
      (generate_script none trendC6) trendC6) "tags".data = [] := by
  decide

/-- C6 (amended): when every AI provider fails, `generate_script` output
contains the literal trend title, and the metadata produced from that
script has a non-empty `description`; its `title` entry is non-empty
whenever the trend title is, and its `tags` entry is non-empty whenever
the trend's keyword list is absent or non-empty. -/
theorem content_fallback_guarantees (t : Trend) :
    List.IsInfix t.title (generate_script none t) ∧
    (t.title ≠ [] →
      dictGetStr (generate_metadata .providersFailed
        (generate_script none t) t) "title".data ≠ []) ∧
    dictGetStr (generate_metadata .providersFailed
      (generate_script none t) t) "description".data ≠ [] ∧
    ((t.keywords = none ∨ ∃ ks, t.keywords = some ks ∧ ks ≠ []) →
      dictGetList (generate_metadata .providersFailed
        (generate_script none t) t) "tags".data ≠ []) := by
  refine ⟨?_, ?_, ?_, ?_⟩
  · exact ⟨"Did you know this is trending right now?\n\n".data,
      "\n\nHere\x27s what makes it special:\n• Unique style\n• Easy to wear\n• Perfect for any occasion\n\nTry this trend and stand out!\n\nFollow for daily fashion tips!".data,
      rfl⟩
  · intro hne
    have e : dictGetStr (generate_metadata .providersFailed
        (generate_script none t) t) "title".data = t.title.take 60 := rfl
    rw [e, Ne, List.take_eq_nil_iff]
    rintro (h | h)
    · exact absurd h (by decide)
    · exact hne h
  · have e : dictGetStr (generate_metadata .providersFailed
        (generate_script none t) t) "description".data =
        (fallback_script t).take 200 := rfl
    rw [e, Ne, List.take_eq_nil_iff]
    rintro (h | h)
    · exact absurd h (by decide)
    · unfold fallback_script at h
      rw [List.append_eq_nil, List.append_eq_nil] at h
      exact absurd h.1.1 (by decide)
  · intro hk
    have e : dictGetList (generate_metadata .providersFailed
        (generate_script none t) t) "tags".data =
        t.keywords.getD ["fashion".data, "style".data, "trend".data] := rfl
    rw [e]
    rcases hk with h | ⟨ks, hks, hksne⟩
    · rw [h]
      decide
    · rw [hks]
      exact hksne

/-- C6 witness: the amended guarantees applied to a trend with a
non-empty title and a non-empty keyword list. -/
theorem content_fallback_guarantees_witness :
    dictGetStr (generate_metadata .providersFailed
      (generate_script none trendC6ok) trendC6ok) "title".data ≠ [] ∧
    dictGetList (generate_metadata .providersFailed
      (generate_script none trendC6ok) trendC6ok) "tags".data ≠ [] :=
  ⟨(content_fallback_guarantees trendC6ok).2.1 (by decide),
   (content_fallback_guarantees trendC6ok).2.2.2
     (Or.inr ⟨["fashion".data], rfl, by decide⟩)⟩

/-- `updRow` touches only the four stats columns. -/
lemma updRow_upload_id (r : AnalyticsRow) (s : StatsDict) :
    (updRow r s).upload_id = r.upload_id := rfl

/-- When no analytics row exists for the upload id, `update_analytics`
appends a fresh row. -/
lemma update_analytics_insert (table : List AnalyticsRow) (uid : Nat)
    (s : StatsDict) (h : ∀ r ∈ table, r.upload_id ≠ uid) :
    update_analytics table uid s =
      table ++ [updRow { id := nextRowId table, upload_id := uid,
                         views := 0, likes := 0, comments := 0, shares := 0 } s] := by
  unfold update_analytics
  rw [if_neg]
  intro hany
  rw [List.any_eq_true] at hany
  rcases hany with ⟨r, hr, hruid⟩
  rw [decide_eq_true_eq] at hruid
  exact h r hr hruid

/-- When exactly one row carries the upload id, `update_analytics`
rewrites that row's stats columns in place. -/
lemma update_analytics_existing (a b : List AnalyticsRow) (row : AnalyticsRow)
    (uid : Nat) (s : StatsDict) (hrow : row.upload_id = uid)
    (ha : ∀ r ∈ a, r.upload_id ≠ uid) (hb : ∀ r ∈ b, r.upload_id ≠ uid) :
    update_analytics (a ++ row :: b) uid s = a ++ updRow row s :: b := by
  unfold update_analytics
  rw [if_pos]
  · rw [List.map_append, List.map_cons]
    have e1 : a.map (fun r => if r.upload_id = uid then updRow r s else r) = a := by
      have h1 : ∀ r ∈ a, (if r.upload_id = uid then updRow r s else r) = id r :=
        fun r hr => by rw [if_neg (ha r hr)]; rfl
      rw [List.map_congr_left h1, List.map_id]
    have e2 : b.map (fun r => if r.upload_id = uid then updRow r s else r) = b := by
      have h1 : ∀ r ∈ b, (if r.upload_id = uid then updRow r s else r) = id r :=
        fun r hr => by rw [if_neg (hb r hr)]; rfl
      rw [List.map_congr_left h1, List.map_id]
    rw [e1, e2, if_pos hrow]
  · rw [List.any_eq_true]
    exact ⟨row, by simp, by simp [hrow]⟩

/-- Running a sequence of updates against a table whose only row for the
upload id is `row` folds the stats rewrites into that row. -/
lemma runUpdates_existing (uid : Nat) (calls : List StatsDict) :
    ∀ (a b : List AnalyticsRow) (row : AnalyticsRow), row.upload_id = uid →
      (∀ r ∈ a, r.upload_id ≠ uid) → (∀ r ∈ b, r.upload_id ≠ uid) →
      runUpdates (a ++ row :: b) uid calls = a ++ (calls.foldl updRow row) :: b := by
  induction calls with
  | nil =>
      intro a b row hrow ha hb
      rfl
  | cons s cs ih =>
      intro a b row hrow ha hb
      have h1 : runUpdates (a ++ row :: b) uid (s :: cs) =
          runUpdates (update_analytics (a ++ row :: b) uid s) uid cs := rfl
      rw [h1, update_analytics_existing a b row uid s hrow ha hb]
      exact ih a b (updRow row s) (by rw [updRow_upload_id]; exact hrow) ha hb

/-- Folding stats rewrites keeps the row identity and leaves the stats of
the last call. -/
lemma foldl_updRow_fields (cs : List StatsDict) :
    ∀ row : AnalyticsRow,
      (cs.foldl updRow row).upload_id = row.upload_id ∧
      (cs.foldl updRow row).id = row.id ∧
      ∀ last, cs.getLast? = some last →
        (cs.foldl updRow row).views = statGet last "views".data ∧
        (cs.foldl updRow row).likes = statGet last "likes".data ∧
        (cs.foldl updRow row).comments = statGet last "comments".data ∧
        (cs.foldl updRow row).shares = statGet last "shares".data := by
  induction cs with
  | nil =>
      intro row
      refine ⟨rfl, rfl, ?_⟩
      intro last hlast
      simp at hlast
  | cons s cs2 ih =>
      intro row
      refine ⟨?_, ?_, ?_⟩
      · rw [List.foldl_cons]
        exact (ih (updRow row s)).1.trans (updRow_upload_id row s)
      · rw [List.foldl_cons]
        exact (ih (updRow row s)).2.1.trans rfl
      · intro last hlast
        rw [List.foldl_cons]
        cases cs2 with
        | nil =>
            have : s = last := by
              simpa using hlast
            subst this
            exact ⟨rfl, rfl, rfl, rfl⟩
        | cons s2 cs3 =>
            rw [List.getLast?_cons_cons] at hlast
            exact (ih (updRow row s)).2.2 last hlast

/-- C8: starting from a table with no analytics row for an upload id, any
non-empty sequence of `update_analytics` calls for that id leaves exactly
one row for it, grows the table by exactly one row overall, and that
row's stats columns carry the values of the most recent call (update in
place if a row exists, else insert — never a second row). -/
theorem update_analytics_upsert (table : List AnalyticsRow) (uid : Nat)
    (calls : List StatsDict) (hnone : ∀ r ∈ table, r.upload_id ≠ uid)
    (hne : calls ≠ []) :
    ((runUpdates table uid calls).filter
      (fun r => decide (r.upload_id = uid))).length = 1 ∧
    (runUpdates table uid calls).length = table.length + 1 ∧
    ∀ last, calls.getLast? = some last →
      ∀ r ∈ runUpdates table uid calls, r.upload_id = uid →
        r.views = statGet last "views".data ∧
        r.likes = statGet last "likes".data ∧
        r.comments = statGet last "comments".data ∧
        r.shares = statGet last "shares".data := by
  rcases List.exists_cons_of_ne_nil hne with ⟨c, cs, rfl⟩
  have h1 : runUpdates table uid (c :: cs) =
      runUpdates (update_analytics table uid c) uid cs := rfl
  rw [h1, update_analytics_insert table uid c hnone]
  set row0 := updRow ⟨nextRowId table, uid, 0, 0, 0, 0⟩ c with hR0
  have hrow0 : row0.upload_id = uid := by
    rw [hR0]
    rfl
  have h2 := runUpdates_existing uid cs table [] row0 hrow0 hnone (by simp)
  have h2' : table ++ [row0] = table ++ row0 :: [] := rfl
  rw [h2', h2]
  have hRuid : (cs.foldl updRow row0).upload_id = uid :=
    (foldl_updRow_fields cs _).1.trans hrow0
  refine ⟨?_, ?_, ?_⟩
  · rw [List.filter_append]
    have hfa : table.filter (fun r => decide (r.upload_id = uid)) = [] := by
      rw [List.filter_eq_nil_iff]
      intro r hr
      simp only [decide_eq_true_eq]
      exact hnone r hr
    rw [hfa]
    simp [hRuid]
  · simp
  · intro last hlast r hr hruid
    rw [List.mem_append] at hr
    rcases hr with hr | hr
    · exact absurd hruid (hnone r hr)
    · have hrR : r = cs.foldl updRow row0 := by simpa using hr
      subst hrR
      cases cs with
      | nil =>
          have hcl : c = last := by simpa using hlast
          subst hcl
          exact ⟨rfl, rfl, rfl, rfl⟩
      | cons c2 cs2 =>
          rw [List.getLast?_cons_cons] at hlast
          exact (foldl_updRow_fields (c2 :: cs2) _).2.2 last hlast

/-- C8 witness: the upsert property applied to the claim's round-trip —
an empty table, then views 100, then views 200, for upload id 7 — plus
the concrete final table. -/
theorem update_analytics_upsert_witness :
    ((runUpdates [] 7 callsC8).filter
      (fun r => decide (r.upload_id = 7))).length = 1 ∧
    (runUpdates [] 7 callsC8).length = 1 ∧
    runUpdates [] 7 callsC8 =
      [{ id := 1, upload_id := 7, views := 200, likes := 0,
         comments := 0, shares := 0 }] :=
  ⟨(update_analytics_upsert ([] : List AnalyticsRow) 7 callsC8
      (by simp) (by decide)).1,
   by simpa using (update_analytics_upsert ([] : List AnalyticsRow) 7 callsC8
      (by simp) (by decide)).2.1,
   by decide⟩

/-- C9: for every requested count, the fallback trend generator returns
exactly `min(requested, number of templates)` trend records, each with a
non-empty keyword list (the generic defaults when heuristic extraction
comes back empty) and a score within `[100, 500]`. -/
theorem generate_fallback_trends_spec (shuffled : List Str) (year : Nat)
    (rand : Nat → Nat) (n : Nat) (hperm : shuffled.Perm trend_templates) :
    (generate_fallback_trends shuffled year rand n).length =
      min n trend_templates.length ∧
    ∀ t ∈ generate_fallback_trends shuffled year rand n,
      (∃ ks, t.keywords = some ks ∧ ks ≠ []) ∧
      100 ≤ t.score ∧ t.score ≤ 500 := by
  constructor
  · simp [generate_fallback_trends, List.enum_length, List.length_take,
      hperm.length_eq]
  · intro t ht
    simp only [generate_fallback_trends, List.mem_map] at ht
    rcases ht with ⟨ie, hmem, rfl⟩
    refine ⟨⟨_, rfl, ?_⟩, ?_, ?_⟩
    · by_cases h : extract_keywords (formatTitle ie.2 (toString year).data) = []
      · rw [if_pos h]
        decide
      · rw [if_neg h]
        exact h
    · exact Nat.le_add_right 100 _
    · show 100 + rand ie.1 % 401 ≤ 500
      have := Nat.mod_lt (rand ie.1) (show 0 < 401 by decide)
      omega

/-- C9 witness: the fallback-generation property applied to the identity
shuffle, year 2025, a concrete random source, and a request for 3
trends. -/
theorem generate_fallback_trends_spec_witness :
    (generate_fallback_trends trend_templates 2025 (fun i => i * 137) 3).length =
      min 3 trend_templates.length ∧
    ∀ t ∈ generate_fallback_trends trend_templates 2025 (fun i => i * 137) 3,
      (∃ ks, t.keywords = some ks ∧ ks ≠ []) ∧
      100 ≤ t.score ∧ t.score ≤ 500 :=
  generate_fallback_trends_spec trend_templates 2025 (fun i => i * 137) 3
    (List.Perm.refl trend_templates)

/-- The similarity test holds exactly when the new title has words and
the overlap ratio strictly exceeds 7/10. -/
lemma isSimilar_eq_true (a b : Str) :
    isSimilar a b = true ↔
      0 < (wordSet a).card ∧ (7 : ℚ) / 10 < overlapRatio a b := by
  unfold isSimilar overlapRatio
  rw [Bool.and_eq_true, decide_eq_true_eq, decide_eq_true_eq]
  constructor
  · rintro ⟨h1, h2⟩
    refine ⟨h1, ?_⟩
    have hc : (0 : ℚ) < ((wordSet a).card : ℚ) := by exact_mod_cast h1
    rw [div_lt_div_iff₀ (by norm_num) hc]
    have h3 : (7 * (wordSet a).card : ℕ) <
        ((wordSet a ∩ wordSet b).card * 10 : ℕ) := by omega
    exact_mod_cast h3
  · rintro ⟨h1, h2⟩
    refine ⟨h1, ?_⟩
    have hc : (0 : ℚ) < ((wordSet a).card : ℚ) := by exact_mod_cast h1
    rw [div_lt_div_iff₀ (by norm_num) hc] at h2
    have h3 : (7 * (wordSet a).card : ℕ) <
        ((wordSet a ∩ wordSet b).card * 10 : ℕ) := by exact_mod_cast h2
    omega

/-- The accept decision holds exactly when the lowercase title is not
among the accepted ones and is similar to none of them. -/
lemma keepDecision_eq_true (seen : List Str) (title : Str) :
    keepDecision seen title = true ↔
      title ∉ seen ∧ ∀ s ∈ seen, isSimilar title s = false := by
  unfold keepDecision
  rw [Bool.and_eq_true, Bool.not_eq_true', Bool.not_eq_true',
    decide_eq_false_iff_not, List.any_eq_false]
  simp

/-- The drop decision holds exactly when the lowercase title was already
accepted or is similar to some accepted title. -/
lemma keepDecision_eq_false (seen : List Str) (title : Str) :
    keepDecision seen title = false ↔
      title ∈ seen ∨ ∃ s ∈ seen, isSimilar title s = true := by
  rw [← Bool.not_eq_true, keepDecision_eq_true]
  push_neg
  constructor
  · intro h
    by_cases hm : title ∈ seen
    · exact Or.inl hm
    · rcases h hm with ⟨s, hs, hsim⟩
      exact Or.inr ⟨s, hs, by simpa using hsim⟩
  · rintro (hm | ⟨s, hs, hsim⟩) h2
    · exact absurd hm h2
    · exact ⟨s, hs, by simp [hsim]⟩

/-- One step of the deduplication loop, phrased through the decision
function. -/
lemma dedupGo_cons (seen : List Str) (t : Trend) (l : List Trend) :
    dedupGo seen (t :: l) =
      if keepDecision seen (lowerStr t.title) then
        t :: dedupGo (lowerStr t.title :: seen) l
      else dedupGo seen l := by
  by_cases h1 : lowerStr t.title ∈ seen
  · rw [if_neg]
    · simp only [dedupGo]
      rw [if_pos h1]
    · rw [Bool.not_eq_true, keepDecision_eq_false]
      exact Or.inl h1
  · by_cases h2 : (seen.any fun s => isSimilar (lowerStr t.title) s) = true
    · rw [if_neg]
      · simp only [dedupGo]
        rw [if_neg h1, if_pos h2]
      · rw [Bool.not_eq_true, keepDecision_eq_false]
        rcases List.any_eq_true.mp h2 with ⟨s, hs, hsim⟩
        exact Or.inr ⟨s, hs, hsim⟩
    · rw [if_pos]
      · simp only [dedupGo]
        rw [if_neg h1, if_neg h2]
      · rw [keepDecision_eq_true]
        refine ⟨h1, ?_⟩
        intro s hs
        rcases Bool.eq_false_or_eq_true (isSimilar (lowerStr t.title) s) with h | h
        · exact absurd (List.any_eq_true.mpr ⟨s, hs, h⟩) h2
        · exact h

/-- The per-position decision equals the decision function applied to
the seen set at that position. -/
lemma dedupFlags_get? (l : List Trend) :
    ∀ (seen : List Str) (j : Nat),
      (dedupFlags seen l).get? j =
        (l.get? j).map fun t => keepDecision (seenAt seen l j) (lowerStr t.title) := by
  induction l with
  | nil =>
      intro seen j
      simp [dedupFlags]
  | cons t rest ih =>
      intro seen j
      cases j with
      | zero =>
          simp [dedupFlags, seenAt]
      | succ j2 =>
          simp only [dedupFlags, List.get?_cons_succ, seenAt]
          exact ih (seenAfter seen (lowerStr t.title)) j2

/-- The seen set never loses elements. -/
lemma mem_seenAt_of_mem (l : List Trend) :
    ∀ (seen : List Str) (k : Nat) (x : Str), x ∈ seen → x ∈ seenAt seen l k := by
  induction l with
  | nil =>
      intro seen k x hx
      cases k <;> simpa [seenAt] using hx
  | cons t rest ih =>
      intro seen k x hx
      cases k with
      | zero => simpa [seenAt] using hx
      | succ k2 =>
          show x ∈ seenAt (seenAfter seen (lowerStr t.title)) rest k2
          apply ih
          unfold seenAfter
          split
          · exact List.mem_cons_of_mem _ hx
          · exact hx

/-- The seen set grows monotonically along the loop. -/
lemma seenAt_mono (l : List Trend) :
    ∀ (seen : List Str) (i j : Nat), i ≤ j →
      ∀ x ∈ seenAt seen l i, x ∈ seenAt seen l j := by
  induction l with
  | nil =>
      intro seen i j hij x hx
      cases i <;> cases j <;> simpa [seenAt] using hx
  | cons t rest ih =>
      intro seen i j hij x hx
      cases i with
      | zero =>
          cases j with
          | zero => exact hx
          | succ j2 =>
              show x ∈ seenAt (seenAfter seen (lowerStr t.title)) rest j2
              apply mem_seenAt_of_mem
              unfold seenAfter
              split
              · exact List.mem_cons_of_mem _ hx
              · exact hx
      | succ i2 =>
          cases j with
          | zero => omega
          | succ j2 =>
              exact ih (seenAfter seen (lowerStr t.title)) i2 j2 (by omega) x hx

/-- After accepting a trend, its lowercase title is the head of the seen
set. -/
lemma seenAt_succ_of_get? (l : List Trend) :
    ∀ (seen : List Str) (i : Nat) (t : Trend), l.get? i = some t →
      seenAt seen l (i + 1) =
        seenAfter (seenAt seen l i) (lowerStr t.title) := by
  induction l with
  | nil =>
      intro seen i t h
      simp at h
  | cons t0 rest ih =>
      intro seen i t h
      cases i with
      | zero =>
          simp only [List.get?_cons_zero, Option.some.injEq] at h
          subst h
          simp [seenAt]
      | succ i2 =>
          simp only [List.get?_cons_succ] at h
          show seenAt (seenAfter seen (lowerStr t0.title)) rest (i2 + 1) = _
          rw [ih (seenAfter seen (lowerStr t0.title)) i2 t h]
          simp [seenAt]

/-- The seen set at position `j` holds exactly the initial entries plus
the lowercase titles accepted among the first `j` trends. -/
lemma mem_seenAt_iff (l : List Trend) :
    ∀ (seen : List Str) (j : Nat) (x : Str),
      x ∈ seenAt seen l j ↔
        x ∈ seen ∨ x ∈ (dedupGo seen (l.take j)).map fun t => lowerStr t.title := by
  induction l with
  | nil =>
      intro seen j x
      cases j <;> simp [seenAt, dedupGo]
  | cons t rest ih =>
      intro seen j x
      cases j with
      | zero =>
          simp [seenAt, dedupGo]
      | succ j2 =>
          show x ∈ seenAt (seenAfter seen (lowerStr t.title)) rest j2 ↔ _
          rw [ih (seenAfter seen (lowerStr t.title)) j2 x,
            List.take_succ_cons, dedupGo_cons]
          unfold seenAfter
          by_cases hk : keepDecision seen (lowerStr t.title) = true
          · rw [if_pos hk, if_pos hk]
            simp only [List.map_cons, List.mem_cons]
            tauto
          · rw [if_neg hk, if_neg hk]

/-- No two accepted trends share a lowercase title, and no accepted
title lies in the initial seen set. -/
lemma dedupGo_titles_nodup (l : List Trend) :
    ∀ (seen : List Str),
      (((dedupGo seen l).map fun t => lowerStr t.title).Nodup ∧
        ∀ x ∈ (dedupGo seen l).map fun t => lowerStr t.title, x ∉ seen) := by
  induction l with
  | nil =>
      intro seen
      simp [dedupGo]
  | cons t rest ih =>
      intro seen
      rw [dedupGo_cons]
      by_cases hk : keepDecision seen (lowerStr t.title) = true
      · rw [if_pos hk]
        have hmem : lowerStr t.title ∉ seen :=
          ((keepDecision_eq_true seen (lowerStr t.title)).mp hk).1
        have ih2 := ih (lowerStr t.title :: seen)
        simp only [List.map_cons, List.nodup_cons]
        refine ⟨⟨?_, ih2.1⟩, ?_⟩
        · intro hcontra
          exact absurd (List.mem_cons_self _ _) (ih2.2 _ hcontra)
        · intro x hx
          rcases List.mem_cons.mp hx with hx | hx
          · rw [hx]
            exact hmem
          · intro hxs
            exact ih2.2 x hx (List.mem_cons_of_mem _ hxs)
      · rw [if_neg hk]
        exact ih seen

/-- Deduplication returns a subsequence of its input. -/
lemma dedupGo_sublist (l : List Trend) :
    ∀ seen : List Str, (dedupGo seen l).Sublist l := by
  induction l with
  | nil =>
      intro seen
      simp [dedupGo]
  | cons t rest ih =>
      intro seen
      rw [dedupGo_cons]
      by_cases hk : keepDecision seen (lowerStr t.title) = true
      · rw [if_pos hk]
        exact (ih _).cons₂ t
      · rw [if_neg hk]
        exact (ih seen).cons t

/-- The survivors are exactly the trends whose flag is true. -/
lemma dedupGo_eq_filter_zip (l : List Trend) :
    ∀ seen : List Str,
      dedupGo seen l =
        ((l.zip (dedupFlags seen l)).filter fun p => p.2).map Prod.fst := by
  induction l with
  | nil =>
      intro seen
      simp [dedupGo, dedupFlags]
  | cons t rest ih =>
      intro seen
      rw [dedupGo_cons]
      show _ = (((t :: rest).zip (keepDecision seen (lowerStr t.title) ::
        dedupFlags (seenAfter seen (lowerStr t.title)) rest)).filter
          fun p => p.2).map Prod.fst
      rw [List.zip_cons_cons, List.filter_cons]
      by_cases hk : keepDecision seen (lowerStr t.title) = true
      · rw [if_pos hk, if_pos (by simpa using hk)]
        simp only [List.map_cons]
        have hseen : seenAfter seen (lowerStr t.title) = lowerStr t.title :: seen := by
          unfold seenAfter
          rw [if_pos hk]
        rw [hseen, ih (lowerStr t.title :: seen)]
      · rw [if_neg hk, if_neg (by simpa using hk)]
        have hseen : seenAfter seen (lowerStr t.title) = seen := by
          unfold seenAfter
          rw [if_neg hk]
        rw [hseen, ih seen]

/-- C3: trend deduplication keeps an order-preserving subsequence of its
input; no two survivors share a case-insensitive title, so of two trends
with case-insensitive identical titles at most the first in processing
order survives (and an earlier occurrence always forces the later flag to
false); and a trend is accepted exactly when its lowercase title is not
among the previously accepted ones and no previously accepted title gives
a word-overlap ratio (|intersection| / |new title's word set|) strictly
above 7/10 — a greatest ratio of exactly 7/10 or below keeps the
trend. -/
theorem deduplicate_trends_spec (ts : List Trend) :
    (deduplicate_trends ts).Sublist ts ∧
    ((deduplicate_trends ts).map fun t => lowerStr t.title).Nodup ∧
    deduplicate_trends ts =
      ((ts.zip (dedupFlags [] ts)).filter fun p => p.2).map Prod.fst ∧
    (∀ (i j : Nat) (hi : i < ts.length) (hj : j < ts.length), i < j →
      lowerStr (ts.get ⟨i, hi⟩).title = lowerStr (ts.get ⟨j, hj⟩).title →
      (dedupFlags [] ts).get? j = some false) ∧
    (∀ (j : Nat) (t : Trend), ts.get? j = some t →
      ((dedupFlags [] ts).get? j = some true ↔
        lowerStr t.title ∉
          ((deduplicate_trends (ts.take j)).map fun t2 => lowerStr t2.title) ∧
        ∀ s ∈ (deduplicate_trends (ts.take j)).map fun t2 => lowerStr t2.title,
          ¬(0 < (wordSet (lowerStr t.title)).card ∧
            (7 : ℚ) / 10 < overlapRatio (lowerStr t.title) s))) := by
  refine ⟨dedupGo_sublist ts [], (dedupGo_titles_nodup ts []).1,
    dedupGo_eq_filter_zip ts [], ?_, ?_⟩
  · intro i j hi hj hij heq
    rw [dedupFlags_get?, List.get?_eq_get hj]
    refine congrArg some ?_
    rw [keepDecision_eq_false, ← heq]
    by_cases hki : keepDecision (seenAt [] ts i)
        (lowerStr (ts.get ⟨i, hi⟩).title) = true
    · left
      have hstep := seenAt_succ_of_get? ts [] i _ (List.get?_eq_get hi)
      have hmem : lowerStr (ts.get ⟨i, hi⟩).title ∈ seenAt [] ts (i + 1) := by
        rw [hstep]
        unfold seenAfter
        rw [if_pos hki]
        exact List.mem_cons_self _ _
      exact seenAt_mono ts [] (i + 1) j (by omega) _ hmem
    · rw [Bool.not_eq_true, keepDecision_eq_false] at hki
      rcases hki with hmem | ⟨s, hs, hsim⟩
      · exact Or.inl (seenAt_mono ts [] i j (by omega) _ hmem)
      · exact Or.inr ⟨s, seenAt_mono ts [] i j (by omega) s hs, hsim⟩
  · intro j t hgt
    rw [dedupFlags_get?, hgt]
    have hsome : ((some t).map fun t2 =>
        keepDecision (seenAt [] ts j) (lowerStr t2.title)) =
        some (keepDecision (seenAt [] ts j) (lowerStr t.title)) := rfl
    rw [hsome, Option.some_inj, keepDecision_eq_true]
    have hm : ∀ x : Str, x ∈ seenAt [] ts j ↔
        x ∈ (dedupGo [] (ts.take j)).map fun t2 => lowerStr t2.title := by
      intro x
      rw [mem_seenAt_iff]
      simp
    unfold deduplicate_trends
    apply and_congr
    · exact not_congr (hm _)
    · constructor
      · intro hb s hs
        have h1 := hb s ((hm s).mpr hs)
        intro hcontra
        rw [← isSimilar_eq_true, h1] at hcontra
        cases hcontra
      · intro hb s hs
        have h2 := hb s ((hm s).mp hs)
        rcases Bool.eq_false_or_eq_true (isSimilar (lowerStr t.title) s)
          with h | h
        · exact absurd ((isSimilar_eq_true _ _).mp h) h2
        · exact h

/-- C3 witness: on the concrete input `[tA, tB, tC, tD]` — where `tB` is
a case-variant of `tA`, `tC` overlaps `tA` at ratio exactly 7/10 and `tD`
at 7/8 — deduplication keeps `tA` and `tC` only; the case-duplicate flag
at position 1 follows from the theorem. -/
theorem deduplicate_trends_spec_witness :
    deduplicate_trends [tA, tB, tC, tD] = [tA, tC] ∧
    overlapRatio (lowerStr tC.title) (lowerStr tA.title) = 7 / 10 ∧
    overlapRatio (lowerStr tD.title) (lowerStr tA.title) = 7 / 8 ∧
    dedupFlags [] [tA, tB, tC, tD] = [true, false, true, false] ∧
    (dedupFlags [] [tA, tB, tC, tD]).get? 1 = some false :=
  ⟨by decide,
   by
    have h1 : (wordSet (lowerStr tC.title) ∩
        wordSet (lowerStr tA.title)).card = 7 := by decide
    have h2 : (wordSet (lowerStr tC.title)).card = 10 := by decide
    unfold overlapRatio
    rw [h1, h2]
    norm_num,
   by
    have h1 : (wordSet (lowerStr tD.title) ∩
        wordSet (lowerStr tA.title)).card = 7 := by decide
    have h2 : (wordSet (lowerStr tD.title)).card = 8 := by decide
    unfold overlapRatio
    rw [h1, h2]
    norm_num,
   by decide,
   (deduplicate_trends_spec [tA, tB, tC, tD]).2.2.2.1 0 1 (by decide)
     (by decide) (by decide) (by decide)⟩

end ViralFashion
